import Mathlib

/-!
Verification of scripts/check_copyright_notice.py (cpackget repository).

The script checks each given file for a fixed copyright notice and a fixed
license identifier inside its comments.  Per file it: returns 0 for empty
files; sniffs the MIME type (errors caught, diagnostic printed, return 1);
remaps "text/plain" to "text/x-c++"; extracts all comments for that type
(errors caught, diagnostic printed, return 1); joins the comment texts with
newlines and requires both fixed substrings (otherwise prints a header plus
one line per missing notice and returns 1).  main folds the per-file results
with bitwise OR.

Embedding choices: a `FileModel` is the filesystem's view of one path —
its name, the result of the size query (`os.path.getsize`, which the source
calls OUTSIDE any try/except, so its errors propagate), the result of MIME
sniffing (`magic.from_file`, caught), and the comment-extraction result as a
function of the MIME type passed (`comment_parser.extract_comments`, caught).
Python exceptions are `Except String`; printing is modelled by returning the
list of printed lines.  `check_file` returns `Except String (Nat × List
String)`: `Except.error e` is an exception escaping the function, `Except.ok
(code, lines)` is a normal return of `code` having printed `lines`.
-/

namespace CheckCopyrightNotice

/-- `COPYRIGHT_TEXT` constant of the script. -/
def COPYRIGHT_TEXT : String := "Copyright Contributors to the cpackget project."

/-- `LICENSE_TEXT` constant of the script. -/
def LICENSE_TEXT : String := "SPDX-License-Identifier: Apache-2.0"

/-- The filesystem's view of one path: everything the script can observe
about it through `os.path.getsize`, `magic.from_file` and
`comment_parser.extract_comments`. -/
structure FileModel where
  filename : String
  /-- result of `os.path.getsize filename` (error = raised OSError). -/
  sizeResult : Except String Nat
  /-- result of `magic.from_file filename mime=True` (error = raised). -/
  mimeResult : Except String String
  /-- result of `comment_parser.extract_comments filename mime=m` as a
  function of the MIME type `m` passed; `ok` carries the list of the
  comments' texts in file order. -/
  extractResult : String → Except String (List String)

/-- Boolean test that `p` is a prefix of `s` (lists of characters). -/
def isPrefB : List Char → List Char → Bool
  | [], _ => true
  | _ :: _, [] => false
  | a :: p, b :: s => a == b && isPrefB p s

/-- Boolean test that `p` occurs as a contiguous sublist of `s`. -/
def isInfB (p : List Char) (s : List Char) : Bool :=
  isPrefB p s ||
    match s with
    | [] => false
    | _ :: rest => isInfB p rest

/-- Python's substring containment `pat in s`. -/
def substrIn (pat s : String) : Bool := isInfB pat.data s.data

/-- The `text/plain` → `text/x-c++` remap applied to the sniffed MIME type
before comment extraction (`if mime_type == "text/plain": mime_type =
"text/x-c++"`). -/
def remap (mime_type : String) : String :=
  if mime_type = "text/plain" then "text/x-c++" else mime_type

/-- Line printed when MIME detection raises. -/
def mimeErrLine (filename e : String) : String :=
  "# Error reading MIME type of " ++ filename ++ ": " ++ e

/-- Line printed when comment extraction raises. -/
def parseErrLine (filename e : String) : String :=
  "# Failed to parse comments in " ++ filename ++ ": " ++ e

/-- Header line printed when a required notice is missing. -/
def errHeader (filename : String) : String :=
  "# Copyright check error(s) in: " ++ filename

/-- Line printed when the copyright notice is missing. -/
def missingCopyrightLine : String :=
  "\t# Missing or invalid copyright. Expected: " ++ COPYRIGHT_TEXT

/-- Line printed when the license notice is missing. -/
def missingLicenseLine : String :=
  "\t# Missing or invalid license. Expected: " ++ LICENSE_TEXT

/-- Translation of `check_file`.  The size query is outside every
`try`/`except` in the source, so its error propagates (`Except.error`);
MIME and extraction errors are caught and become `ok (1, [diagnostic])`. -/
def check_file (f : FileModel) : Except String (Nat × List String) :=
  match f.sizeResult with
  | Except.error e => Except.error e
  | Except.ok size =>
    if size = 0 then Except.ok (0, [])
    else
      match f.mimeResult with
      | Except.error e => Except.ok (1, [mimeErrLine f.filename e])
      | Except.ok mime_type =>
        match f.extractResult (remap mime_type) with
        | Except.error e => Except.ok (1, [parseErrLine f.filename e])
        | Except.ok texts =>
          let comments := String.intercalate "\n" texts
          let copyright_found := substrIn COPYRIGHT_TEXT comments
          let license_found := substrIn LICENSE_TEXT comments
          if copyright_found && license_found then Except.ok (0, [])
          else
            Except.ok (1,
              [errHeader f.filename]
                ++ (if copyright_found then [] else [missingCopyrightLine])
                ++ (if license_found then [] else [missingLicenseLine]))

/-- Banner printed by `main` before the loop. -/
def banner : String := "Checking copyright headers..."

/-- Summary line printed by `main` when the accumulated code is nonzero. -/
def summaryErrLine : String :=
  ">> error: One or more files are missing a valid copyright or license header"

/-- The `for filename in args.filenames: ret |= check_file(filename)` loop.
An exception escaping `check_file` aborts the loop and propagates. -/
def runLoop : List FileModel → Nat → List String → Except String (Nat × List String)
  | [], ret, out => Except.ok (ret, out)
  | f :: rest, ret, out =>
    match check_file f with
    | Except.error e => Except.error e
    | Except.ok r => runLoop rest (ret ||| r.1) (out ++ r.2)

/-- Translation of `main`: banner, loop, summary line on failure, return
the accumulated code. -/
def main (files : List FileModel) : Except String (Nat × List String) :=
  match runLoop files 0 [] with
  | Except.error e => Except.error e
  | Except.ok res =>
    Except.ok (res.1,
      [banner] ++ res.2 ++ (if res.1 ≠ 0 then [summaryErrLine] else []))

/-- Projection used to state theorems: the exit code of a normal return. -/
def exitCode : Except String (Nat × List String) → Option Nat
  | Except.ok r => some r.1
  | Except.error _ => none

/-- `true` iff an exception escaped (the call raised rather than returned). -/
def raisesOut : Except String (Nat × List String) → Bool
  | Except.error _ => true
  | Except.ok _ => false

/-! ### Sanity of the substring test: `substrIn` is contiguous containment -/

theorem isPrefB_iff (p s : List Char) : isPrefB p s = true ↔ p <+: s := by
  induction p generalizing s with
  | nil => simp [isPrefB]
  | cons a p ih =>
    cases s with
    | nil => simp [isPrefB]
    | cons b s => simp [isPrefB, ih, List.cons_prefix_cons]

theorem isInfB_iff (p s : List Char) : isInfB p s = true ↔ p <:+: s := by
  induction s with
  | nil =>
    rw [isInfB]
    simp [isPrefB_iff]
  | cons b s ih =>
    rw [isInfB]
    simp [isPrefB_iff, ih, List.infix_cons_iff]

theorem substrIn_iff (pat s : String) :
    substrIn pat s = true ↔ ∃ l r, s.data = l ++ pat.data ++ r := by
  rw [substrIn, isInfB_iff]
  constructor
  · rintro ⟨l, r, h⟩
    exact ⟨l, r, h.symm⟩
  · rintro ⟨l, r, h⟩
    exact ⟨l, r, h.symm⟩

/-! ### Per-file basics -/

/-- Every normal return of `check_file` carries code 0 or 1. -/
theorem check_file_code (f : FileModel) (r : Nat × List String)
    (h : check_file f = Except.ok r) : r.1 = 0 ∨ r.1 = 1 := by
  unfold check_file at h
  dsimp only at h
  repeat' split at h
  all_goals try injection h with h
  all_goals try cases h
  all_goals simp

/-! ### Concrete files used by the witnesses -/

/-- An empty file whose MIME sniff and extraction would both raise. -/
def fEmpty : FileModel :=
  { filename := "empty.go"
    sizeResult := Except.ok 0
    mimeResult := Except.error "cannot open"
    extractResult := fun _ => Except.error "cannot open" }

/-- Comment texts carrying both required notices. -/
def goodComments : List String :=
  [" SPDX-License-Identifier: Apache-2.0",
   " Copyright Contributors to the cpackget project."]

/-- A C file whose comments carry both notices. -/
def fGood : FileModel :=
  { filename := "main.go"
    sizeResult := Except.ok 1234
    mimeResult := Except.ok "text/x-c"
    extractResult := fun _ => Except.ok goodComments }

/-! ### The claims -/

/-- Claim C2: for every file whose size is zero bytes, `check_file` returns
success (0) immediately — printing nothing and independently of the MIME
detection and comment extraction results. -/
theorem check_file_empty_ok (f : FileModel) (h : f.sizeResult = Except.ok 0) :
    check_file f = Except.ok (0, []) := by
  unfold check_file
  rw [h]
  rfl

/-- Witness for C2: a zero-size file whose MIME sniff and extraction would
both raise still passes. -/
theorem check_file_empty_ok_witness :
    fEmpty.sizeResult = Except.ok 0 ∧ check_file fEmpty = Except.ok (0, []) :=
  ⟨rfl, check_file_empty_ok fEmpty rfl⟩

/-- Claim C3: for every non-empty file on which MIME detection and comment
extraction succeed, if the newline-joined concatenation of the extracted
comment texts contains both `COPYRIGHT_TEXT` and `LICENSE_TEXT` as exact
substrings, `check_file` returns 0. -/
theorem check_file_notices_ok (f : FileModel) (n : Nat) (mt : String)
    (texts : List String)
    (hs : f.sizeResult = Except.ok n) (hn : n ≠ 0)
    (hm : f.mimeResult = Except.ok mt)
    (hx : f.extractResult (remap mt) = Except.ok texts)
    (hc : substrIn COPYRIGHT_TEXT (String.intercalate "\n" texts) = true)
    (hl : substrIn LICENSE_TEXT (String.intercalate "\n" texts) = true) :
    check_file f = Except.ok (0, []) := by
  simp [check_file, hs, hn, hm, hx, hc, hl]

/-- Witness for C3: a concrete C file carrying both notices passes. -/
theorem check_file_notices_ok_witness :
    substrIn COPYRIGHT_TEXT (String.intercalate "\n" goodComments) = true ∧
    substrIn LICENSE_TEXT (String.intercalate "\n" goodComments) = true ∧
    check_file fGood = Except.ok (0, []) :=
  ⟨by decide, by decide,
    check_file_notices_ok fGood 1234 "text/x-c" goodComments rfl
      (by decide) rfl rfl (by decide) (by decide)⟩

/-- Two strings differing at some position differ. -/
theorem str_ne_of_get (a b : String) (i : Nat)
    (h : a.data.get? i ≠ b.data.get? i) : a ≠ b :=
  fun he => h (he ▸ rfl)

/-- Claim C4: for every non-empty file whose extracted-comment concatenation
lacks `COPYRIGHT_TEXT` and/or `LICENSE_TEXT`, `check_file` returns 1 and
prints the file-specific error header followed by one line per missing item
(one line if exactly one notice is missing, both if both are missing). -/
theorem check_file_missing_notices (f : FileModel) (n : Nat) (mt : String)
    (texts : List String)
    (hs : f.sizeResult = Except.ok n) (hn : n ≠ 0)
    (hm : f.mimeResult = Except.ok mt)
    (hx : f.extractResult (remap mt) = Except.ok texts)
    (hmiss : substrIn COPYRIGHT_TEXT (String.intercalate "\n" texts) = false ∨
             substrIn LICENSE_TEXT (String.intercalate "\n" texts) = false) :
    check_file f =
      Except.ok (1,
        [errHeader f.filename]
          ++ (if substrIn COPYRIGHT_TEXT (String.intercalate "\n" texts) then []
              else [missingCopyrightLine])
          ++ (if substrIn LICENSE_TEXT (String.intercalate "\n" texts) then []
              else [missingLicenseLine])) := by
  have hand : (substrIn COPYRIGHT_TEXT (String.intercalate "\n" texts) &&
      substrIn LICENSE_TEXT (String.intercalate "\n" texts)) = false := by
    rcases hmiss with h | h <;> simp [h]
  simp [check_file, hs, hn, hm, hx, hand]

/-- A file carrying the license notice but not the copyright notice. -/
def fNoCopyright : FileModel :=
  { filename := "nocopy.c"
    sizeResult := Except.ok 88
    mimeResult := Except.ok "text/x-c"
    extractResult := fun _ => Except.ok [" SPDX-License-Identifier: Apache-2.0"] }

/-- Witness for C4: a file missing only the copyright notice fails with the
header plus exactly the missing-copyright line. -/
theorem check_file_missing_notices_witness :
    check_file fNoCopyright =
      Except.ok (1, [errHeader "nocopy.c", missingCopyrightLine]) :=
  check_file_missing_notices fNoCopyright 88 "text/x-c"
    [" SPDX-License-Identifier: Apache-2.0"] rfl (by decide) rfl rfl
    (Or.inl (by decide))

/-- Claim C10: for every non-empty file from which extraction succeeds with
zero comments, the joined comment string is empty, so `check_file` returns 1
and prints the header plus both missing-notice lines. -/
theorem check_file_no_comments (f : FileModel) (n : Nat) (mt : String)
    (hs : f.sizeResult = Except.ok n) (hn : n ≠ 0)
    (hm : f.mimeResult = Except.ok mt)
    (hx : f.extractResult (remap mt) = Except.ok []) :
    String.intercalate "\n" ([] : List String) = "" ∧
    check_file f =
      Except.ok (1,
        [errHeader f.filename, missingCopyrightLine, missingLicenseLine]) := by
  have h1 : substrIn COPYRIGHT_TEXT (String.intercalate "\n" ([] : List String))
      = false := by decide
  have h2 : substrIn LICENSE_TEXT (String.intercalate "\n" ([] : List String))
      = false := by decide
  exact ⟨rfl, by simp [check_file, hs, hn, hm, hx, h1, h2]⟩

/-- A file whose extraction yields no comments at all. -/
def fNoComments : FileModel :=
  { filename := "bare.c"
    sizeResult := Except.ok 17
    mimeResult := Except.ok "text/x-c"
    extractResult := fun _ => Except.ok [] }

/-- Witness for C10: a comment-free file fails with both missing lines. -/
theorem check_file_no_comments_witness :
    String.intercalate "\n" ([] : List String) = "" ∧
    check_file fNoComments =
      Except.ok (1, [errHeader "bare.c", missingCopyrightLine, missingLicenseLine]) :=
  check_file_no_comments fNoComments 17 "text/x-c" rfl (by decide) rfl rfl

/-- Claim C5: the sniffed type `text/plain` is remapped to `text/x-c++`
before extraction — a `text/plain` file behaves exactly as if its sniffed
type were `text/x-c++` — and for any other sniffed type the type passed to
extraction is the sniffed type unchanged (the result only depends on the
extraction function's value at that type). -/
theorem check_file_mime_remap :
    (∀ f : FileModel, f.mimeResult = Except.ok "text/plain" →
      check_file f = check_file { f with mimeResult := Except.ok "text/x-c++" }) ∧
    (∀ (f : FileModel) (mt : String) (g : String → Except String (List String)),
      f.mimeResult = Except.ok mt → mt ≠ "text/plain" →
      g mt = f.extractResult mt →
      check_file { f with extractResult := g } = check_file f) := by
  have h1 : remap "text/plain" = "text/x-c++" := rfl
  have h2 : remap "text/x-c++" = "text/x-c++" := rfl
  constructor
  · intro f hm
    simp [check_file, hm, h1, h2]
  · intro f mt g hm hne hg
    have h3 : remap mt = mt := by simp [remap, hne]
    simp [check_file, hm, h3, hg]

/-- A plain-text file whose extraction only succeeds for C++ grammar. -/
def fPlain : FileModel :=
  { filename := "notes.txt"
    sizeResult := Except.ok 10
    mimeResult := Except.ok "text/plain"
    extractResult := fun m =>
      if m = "text/x-c++" then Except.ok goodComments
      else Except.error "unsupported" }

/-- A shell script (non-plain sniffed type). -/
def fShell : FileModel :=
  { filename := "run.sh"
    sizeResult := Except.ok 30
    mimeResult := Except.ok "text/x-shellscript"
    extractResult := fun _ => Except.ok goodComments }

/-- Extraction function agreeing with `fShell`'s only on its sniffed type. -/
def gShell : String → Except String (List String) := fun m =>
  if m = "text/x-shellscript" then Except.ok goodComments
  else Except.error "other"

/-- Witness for C5: both parts applied at concrete files. -/
theorem check_file_mime_remap_witness :
    check_file fPlain = check_file { fPlain with mimeResult := Except.ok "text/x-c++" } ∧
    check_file { fShell with extractResult := gShell } = check_file fShell :=
  ⟨check_file_mime_remap.1 fPlain rfl,
   check_file_mime_remap.2 fShell "text/x-shellscript" gShell rfl (by decide) rfl⟩

/-- Claim C6: for every non-empty file whose MIME detection raises, the
check prints the MIME-error diagnostic and returns 1; comment extraction is
not consulted (any extraction function gives the same result) and the
diagnostic differs from every missing-notice line. -/
theorem check_file_mime_error (f : FileModel) (n : Nat) (e : String)
    (hs : f.sizeResult = Except.ok n) (hn : n ≠ 0)
    (hm : f.mimeResult = Except.error e) :
    check_file f = Except.ok (1, [mimeErrLine f.filename e]) ∧
    (∀ g, check_file { f with extractResult := g } = check_file f) ∧
    (∀ s, mimeErrLine f.filename e ≠ errHeader s) ∧
    mimeErrLine f.filename e ≠ missingCopyrightLine ∧
    mimeErrLine f.filename e ≠ missingLicenseLine := by
  refine ⟨?_, ?_, ?_, ?_, ?_⟩
  · simp [check_file, hs, hn, hm]
  · intro g
    simp [check_file, hs, hn, hm]
  · intro s
    apply str_ne_of_get _ _ 2
    have ha : (mimeErrLine f.filename e).data.get? 2 = some 'E' := rfl
    have hb : (errHeader s).data.get? 2 = some 'C' := rfl
    rw [ha, hb]
    simp
  · apply str_ne_of_get _ _ 0
    have ha : (mimeErrLine f.filename e).data.get? 0 = some '#' := rfl
    rw [ha]
    decide
  · apply str_ne_of_get _ _ 0
    have ha : (mimeErrLine f.filename e).data.get? 0 = some '#' := rfl
    rw [ha]
    decide

/-- A file whose MIME sniff raises. -/
def fMimeErr : FileModel :=
  { filename := "weird.bin"
    sizeResult := Except.ok 5
    mimeResult := Except.error "magic failed"
    extractResult := fun _ => Except.ok goodComments }

/-- Witness for C6: the MIME-error path at a concrete file. -/
theorem check_file_mime_error_witness :
    check_file fMimeErr = Except.ok (1, [mimeErrLine "weird.bin" "magic failed"]) ∧
    check_file { fMimeErr with extractResult := fun _ => Except.error "x" }
      = check_file fMimeErr ∧
    mimeErrLine "weird.bin" "magic failed" ≠ errHeader "weird.bin" :=
  ⟨(check_file_mime_error fMimeErr 5 "magic failed" rfl (by decide) rfl).1,
   (check_file_mime_error fMimeErr 5 "magic failed" rfl (by decide) rfl).2.1 _,
   (check_file_mime_error fMimeErr 5 "magic failed" rfl (by decide) rfl).2.2.1 _⟩

/-- Claim C7: for every non-empty file whose comment extraction raises, the
check prints the parse-failure diagnostic and returns 1 — the result is
fully determined before any substring check. -/
theorem check_file_parse_error (f : FileModel) (n : Nat) (mt e : String)
    (hs : f.sizeResult = Except.ok n) (hn : n ≠ 0)
    (hm : f.mimeResult = Except.ok mt)
    (hx : f.extractResult (remap mt) = Except.error e) :
    check_file f = Except.ok (1, [parseErrLine f.filename e]) := by
  simp [check_file, hs, hn, hm, hx]

/-- A file whose comment extraction raises (unsupported type). -/
def fParseErr : FileModel :=
  { filename := "data.yaml"
    sizeResult := Except.ok 40
    mimeResult := Except.ok "text/yaml"
    extractResult := fun _ => Except.error "unsupported MIME type" }

/-- Witness for C7: the parse-error path at a concrete file. -/
theorem check_file_parse_error_witness :
    check_file fParseErr =
      Except.ok (1, [parseErrLine "data.yaml" "unsupported MIME type"]) :=
  check_file_parse_error fParseErr 40 "text/yaml" "unsupported MIME type"
    rfl (by decide) rfl rfl

/-- Claim C9: whenever `check_file` returns 0 — empty file or both notices
found — it prints nothing; diagnostics appear only on failure paths. -/
theorem check_file_success_silent (f : FileModel) (code : Nat)
    (out : List String)
    (h : check_file f = Except.ok (code, out)) (hc : code = 0) : out = [] := by
  subst hc
  unfold check_file at h
  dsimp only at h
  repeat' split at h
  all_goals try injection h with h
  all_goals try cases h
  all_goals simp_all

/-- Witness for C9: a passing file prints nothing. -/
theorem check_file_success_silent_witness :
    check_file fGood = Except.ok (0, []) ∧ ([] : List String) = [] :=
  ⟨rfl, check_file_success_silent fGood 0 [] rfl rfl⟩

/-! ### The accumulation loop of `main` -/

theorem exitCode_check (f : FileModel) (c : Nat)
    (h : exitCode (check_file f) = some c) : c = 0 ∨ c = 1 := by
  unfold exitCode at h
  split at h
  · rename_i r heq
    injection h with h
    subst h
    exact check_file_code f r heq
  · cases h

theorem runLoop_spec (files : List FileModel) (codes : List Nat)
    (hc : List.Forall₂ (fun f c => exitCode (check_file f) = some c) files codes) :
    ∀ ret out, ∃ out2,
      runLoop files ret out
        = Except.ok (codes.foldl (fun a b => a ||| b) ret, out2) := by
  induction hc with
  | nil =>
    intro ret out
    exact ⟨out, rfl⟩
  | @cons f c fs cs hfc htail ih =>
    intro ret out
    cases hcf : check_file f with
    | error e =>
      rw [hcf] at hfc
      simp [exitCode] at hfc
    | ok r =>
      rw [hcf] at hfc
      have hr : r.1 = c := by simpa [exitCode] using hfc
      obtain ⟨out2, h2⟩ := ih (ret ||| c) (out ++ r.2)
      refine ⟨out2, ?_⟩
      simp only [runLoop]
      rw [hcf]
      dsimp only
      rw [hr, h2]
      simp

theorem foldl_or_props : ∀ codes : List Nat, (∀ c ∈ codes, c = 0 ∨ c = 1) →
    ∀ ret : Nat, ret = 0 ∨ ret = 1 →
      (codes.foldl (fun a b => a ||| b) ret = 0 ∨
        codes.foldl (fun a b => a ||| b) ret = 1) ∧
      (codes.foldl (fun a b => a ||| b) ret = 0 ↔
        (ret = 0 ∧ ∀ c ∈ codes, c = 0))
  | [], _, ret, hret => by
    refine ⟨hret, ?_⟩
    simp
  | c :: cs, hcodes, ret, hret => by
    have hc : c = 0 ∨ c = 1 := hcodes c (List.mem_cons_self c cs)
    have hcs : ∀ x ∈ cs, x = 0 ∨ x = 1 := fun x hx =>
      hcodes x (List.mem_cons_of_mem c hx)
    have hor : (ret ||| c) = 0 ∨ (ret ||| c) = 1 := by
      rcases hret with rfl | rfl <;> rcases hc with rfl | rfl <;> simp
    have hoz : (ret ||| c) = 0 ↔ (ret = 0 ∧ c = 0) := by
      rcases hret with rfl | rfl <;> rcases hc with rfl | rfl <;> simp
    have ih := foldl_or_props cs hcs (ret ||| c) hor
    refine ⟨by simpa using ih.1, ?_⟩
    have : (c :: cs).foldl (fun a b => a ||| b) ret
        = cs.foldl (fun a b => a ||| b) (ret ||| c) := by simp
    rw [this, ih.2, hoz, List.forall_mem_cons]
    tauto

theorem forall2_codes_mem (files : List FileModel) (codes : List Nat)
    (hc : List.Forall₂ (fun f c => exitCode (check_file f) = some c) files codes) :
    ∀ c ∈ codes, c = 0 ∨ c = 1 := by
  induction hc with
  | nil => simp
  | @cons f c fs cs hfc htail ih =>
    intro x hx
    rcases List.mem_cons.mp hx with rfl | hx
    · exact exitCode_check f x hfc
    · exact ih x hx

theorem forall2_zero_iff (files : List FileModel) (codes : List Nat)
    (hc : List.Forall₂ (fun f c => exitCode (check_file f) = some c) files codes) :
    (∀ c ∈ codes, c = 0) ↔ (∀ f ∈ files, exitCode (check_file f) = some 0) := by
  induction hc with
  | nil => simp
  | @cons f c fs cs hfc htail ih =>
    simp [List.forall_mem_cons, ih, hfc]

theorem forall2_one_iff (files : List FileModel) (codes : List Nat)
    (hc : List.Forall₂ (fun f c => exitCode (check_file f) = some c) files codes) :
    (∃ c ∈ codes, c = 1) ↔ (∃ f ∈ files, exitCode (check_file f) = some 1) := by
  induction hc with
  | nil => simp
  | @cons f c fs cs hfc htail ih =>
    constructor
    · rintro ⟨x, hx, hx1⟩
      rcases List.mem_cons.mp hx with rfl | hxm
      · exact ⟨f, List.mem_cons_self f fs, by rw [hfc, hx1]⟩
      · obtain ⟨y, hy, hy1⟩ := ih.mp ⟨x, hxm, hx1⟩
        exact ⟨y, List.mem_cons_of_mem f hy, hy1⟩
    · rintro ⟨y, hy, hy1⟩
      rcases List.mem_cons.mp hy with rfl | hym
      · refine ⟨c, List.mem_cons_self c cs, ?_⟩
        rw [hfc] at hy1
        exact Option.some.inj hy1
      · obtain ⟨x, hxm, hx1⟩ := ih.mpr ⟨y, hym, hy1⟩
        exact ⟨x, List.mem_cons_of_mem c hxm, hx1⟩

/-- Claim C1: `main` returns the bitwise (here logical) OR of `check_file`'s
results over the paths in input order, continuing past failing files;
for the empty list it returns 0, and in general it returns 0 exactly when
every file's check returns 0 and 1 exactly when at least one returns 1.
`codes` lists each file's check result, correlated in input order. -/
theorem main_exit_spec (files : List FileModel) (codes : List Nat)
    (hc : List.Forall₂ (fun f c => exitCode (check_file f) = some c) files codes) :
    (∃ out, main files = Except.ok (codes.foldl (fun a b => a ||| b) 0, out)) ∧
    (exitCode (main files) = some 0 ↔
      ∀ f ∈ files, exitCode (check_file f) = some 0) ∧
    (exitCode (main files) = some 1 ↔
      ∃ f ∈ files, exitCode (check_file f) = some 1) ∧
    main ([] : List FileModel) = Except.ok (0, [banner]) := by
  obtain ⟨out2, hrun⟩ := runLoop_spec files codes hc 0 []
  have hcodes : ∀ c ∈ codes, c = 0 ∨ c = 1 := forall2_codes_mem files codes hc
  have hprops := foldl_or_props codes hcodes 0 (Or.inl rfl)
  have hmain : main files
      = Except.ok (codes.foldl (fun a b => a ||| b) 0,
          [banner] ++ out2
            ++ (if codes.foldl (fun a b => a ||| b) 0 ≠ 0 then [summaryErrLine]
                else [])) := by
    unfold main
    rw [hrun]
  have hexit : exitCode (main files) = some (codes.foldl (fun a b => a ||| b) 0) := by
    rw [hmain]
    rfl
  have hne : codes.foldl (fun a b => a ||| b) 0 = 1 ↔
      ¬ codes.foldl (fun a b => a ||| b) 0 = 0 := by
    rcases hprops.1 with h | h <;> rw [h] <;> simp
  refine ⟨⟨_, hmain⟩, ?_, ?_, rfl⟩
  · rw [hexit]
    simp only [Option.some.injEq]
    rw [hprops.2, ← forall2_zero_iff files codes hc]
    simp
  · rw [hexit]
    simp only [Option.some.injEq]
    rw [hne, hprops.2, ← forall2_one_iff files codes hc]
    constructor
    · intro hno
      by_contra hnex
      apply hno
      refine ⟨rfl, fun c hcm => ?_⟩
      rcases hcodes c hcm with rfl | rfl
      · rfl
      · exact absurd ⟨1, hcm, rfl⟩ hnex
    · rintro ⟨x, hx, rfl⟩ ⟨-, hall⟩
      exact absurd (hall 1 hx) one_ne_zero

/-- Witness for C1: a passing and a failing file accumulate to 1. -/
theorem main_exit_spec_witness :
    (∃ out, main [fGood, fNoCopyright]
      = Except.ok ([0, 1].foldl (fun a b => a ||| b) 0, out)) ∧
    (exitCode (main [fGood, fNoCopyright]) = some 0 ↔
      ∀ f ∈ [fGood, fNoCopyright], exitCode (check_file f) = some 0) ∧
    (exitCode (main [fGood, fNoCopyright]) = some 1 ↔
      ∃ f ∈ [fGood, fNoCopyright], exitCode (check_file f) = some 1) ∧
    main ([] : List FileModel) = Except.ok (0, [banner]) :=
  main_exit_spec [fGood, fNoCopyright] [0, 1]
    (List.Forall₂.cons rfl (List.Forall₂.cons rfl List.Forall₂.nil))

/-! ### C8: error containment, and the uncaught size query -/

/-- A checking step of the source raised: MIME sniff or extraction errored. -/
def raisesErr (f : FileModel) : Prop :=
  (∃ e, f.mimeResult = Except.error e) ∨
  (∃ mt e, f.mimeResult = Except.ok mt ∧
    f.extractResult (remap mt) = Except.error e)

/-- A path whose size query raises (`os.path.getsize` on a missing file). -/
def fMissingPath : FileModel :=
  { filename := "missing.txt"
    sizeResult := Except.error "No such file or directory"
    mimeResult := Except.ok "text/plain"
    extractResult := fun _ => Except.ok goodComments }

/-- Counterexample to C8 as stated: `os.path.getsize` is called outside
every `try`/`except` in `check_file`, so its error is NOT converted into a
printed diagnostic plus return value 1 — it escapes `check_file` and aborts
the `main` run. -/
theorem check_file_getsize_propagates :
    raisesOut (check_file fMissingPath) = true ∧
    raisesOut (main [fMissingPath]) = true ∧
    check_file fMissingPath = Except.error "No such file or directory" :=
  ⟨rfl, rfl, rfl⟩

/-- Claim C8 (amended): for every input file path whose size query succeeds,
`check_file` returns normally with code 0 or 1, and every error arising
during MIME detection or comment extraction is caught and converted into a
printed diagnostic plus failure return value 1; only an error of the size
query itself escapes `check_file`. -/
theorem check_file_no_propagation (f : FileModel) (n : Nat)
    (hs : f.sizeResult = Except.ok n) :
    (∃ r, check_file f = Except.ok r ∧ (r.1 = 0 ∨ r.1 = 1)) ∧
    (n ≠ 0 → raisesErr f →
      ∃ out, check_file f = Except.ok (1, out) ∧ out ≠ []) := by
  constructor
  · cases hok : check_file f with
    | error e =>
      exfalso
      unfold check_file at hok
      rw [hs] at hok
      dsimp only at hok
      repeat' split at hok
      all_goals cases hok
    | ok r =>
      exact ⟨r, rfl, check_file_code f r hok⟩
  · intro hn herr
    rcases herr with ⟨e, hm⟩ | ⟨mt, e, hm, hx⟩
    · exact ⟨[mimeErrLine f.filename e], by simp [check_file, hs, hn, hm], by simp⟩
    · exact ⟨[parseErrLine f.filename e],
        by simp [check_file, hs, hn, hm, hx], by simp⟩

/-- Witness for the amended C8: an unsupported-type file is caught and
reported. -/
theorem check_file_no_propagation_witness :
    (∃ r, check_file fParseErr = Except.ok r ∧ (r.1 = 0 ∨ r.1 = 1)) ∧
    (∃ out, check_file fParseErr = Except.ok (1, out) ∧ out ≠ []) :=
  ⟨(check_file_no_propagation fParseErr 40 rfl).1,
   (check_file_no_propagation fParseErr 40 rfl).2 (by decide)
     (Or.inr ⟨"text/yaml", "unsupported MIME type", rfl, rfl⟩)⟩

end CheckCopyrightNotice
